import Mathlib

/-!
# Magnetic Toy Audio Controller — verification of the session state machine

Shallow embedding of `src/play_tracks_by_IO.py`.

Modelling conventions:
* Python floats become exact rationals (`ℚ`); the arithmetic here
  (division by constants, `min`, complement `1 - x`) is exact on the
  values of interest.
* A pygame `Channel` object becomes a `Chan` record: an opaque handle
  (allocation number) plus the current volume.  `Sound.play` may return
  `None` when the mixer cannot allocate a channel; the embedding makes
  that choice explicit through an allocation oracle `ok : ℕ → Bool`
  consulted at each allocation, with a fresh-handle counter in the state.
* The module-level mutable state of the script (`channels`,
  `bg_channels`, `timer_start`, `playing`) becomes the structure `St`.
* ADC reads can raise; a read outcome is `Option ℕ` (`none` = exception).
* GPIO callbacks and main-loop iterations become an event type `Ev` and
  a step function; `Python`'s `list.index` raising `ValueError` on an
  unmapped pin is modelled by `Except`.
-/

namespace MagneticToy

/-- A live mixer channel: opaque allocation handle plus its current volume. -/
structure Chan where
  handle : ℕ
  vol : ℚ
  deriving DecidableEq, Repr

/-- `V_REF = 5.0`, the ADC reference voltage (source line 8). -/
def V_REF : ℚ := 5

/-- `V_SENSOR_MAX = 4.7`, maximum output voltage of the sensor (source line 9). -/
def V_SENSOR_MAX : ℚ := 47 / 10

/-- `ADC_MAX = 1024`, full-scale ADC value (source line 10). -/
def ADC_MAX : ℚ := 1024

/-- `ADC_SENSOR_MAX = (V_SENSOR_MAX / V_REF) * ADC_MAX` (source line 12). -/
def ADC_SENSOR_MAX : ℚ := (V_SENSOR_MAX / V_REF) * ADC_MAX

/-- `PLAYBACK_DURATION = 120` seconds (source line 15). -/
def PLAYBACK_DURATION : ℚ := 120

/-- `input_pins = [0, 5, 6, 13, 19, 26]` (source line 24). -/
def input_pins : List ℕ := [0, 5, 6, 13, 19, 26]

/-- A digital level; pull-up semantics: HIGH = vacated, LOW = inserted. -/
inductive Level where
  | HIGH
  | LOW
  deriving DecidableEq, Repr

/-- The module-level mutable state of the script. -/
structure St where
  channels : List (Option Chan)
  bgChannels : List (Option Chan)
  timer_start : Option ℚ
  playing : Bool
  nextH : ℕ
  deriving Repr

/-- Startup state: `channels = [None]*6`, `bg_channels = [None]*2`,
`timer_start = None`, `playing = False` (source lines 57-63). -/
def init : St :=
  { channels := List.replicate 6 none
    bgChannels := List.replicate 2 none
    timer_start := none
    playing := false
    nextH := 0 }

/-- `get_adc_value` (source lines 66-75): returns the raw sample, or the
fixed midpoint 512 when the read raised. -/
def get_adc_value (r : Option ℕ) : ℕ :=
  match r with
  | some v => v
  | none => 512

/-- The crossfade computation of `adjust_bg_volumes` (source lines 84-85):
`volume_a = min(adc_value / ADC_SENSOR_MAX, 1.0)`. -/
def volume_a_of (adc_value : ℕ) : ℚ :=
  min ((adc_value : ℚ) / ADC_SENSOR_MAX) 1

/-- `if xs[i] is not None: xs[i].set_volume(v)` on a channel list. -/
def setVolAt (xs : List (Option Chan)) (i : ℕ) (v : ℚ) : List (Option Chan) :=
  match xs[i]? with
  | some (some c) => xs.set i (some { c with vol := v })
  | _ => xs

/-- `adjust_bg_volumes` (source lines 78-91): one ADC read, complementary
volumes pushed to whichever background channels exist. -/
def adjust_bg_volumes (r : Option ℕ) (st : St) : St :=
  let adc_value := get_adc_value r
  let volume_a := volume_a_of adc_value
  let volume_b := 1 - volume_a
  { st with bgChannels := setVolAt (setVolAt st.bgChannels 0 volume_a) 1 volume_b }

/-- `track.play(loops=SHOULD_LOOP)`: consults the allocation oracle; on
success the fresh channel plays at pygame's default full volume. -/
def play (ok : ℕ → Bool) (n : ℕ) : Option Chan × ℕ :=
  (if ok n then some ⟨n, 1⟩ else none, n + 1)

/-- One iteration of the background-start loop of `play_all_tracks_muted`
(source lines 111-115): start bg track `i` only if not already playing. -/
def startBgAt (ok : ℕ → Bool) (i : ℕ) (st : St) : St :=
  match st.bgChannels[i]? with
  | some none =>
      let p := play ok st.nextH
      match p.1 with
      | some c => { st with bgChannels := st.bgChannels.set i (some c), nextH := p.2 }
      | none => { st with nextH := p.2 }
  | _ => st

/-- One iteration of the foreground-start loop of `play_all_tracks_muted`
(source lines 121-126): start track `i` muted only if not already playing. -/
def startFgAt (ok : ℕ → Bool) (i : ℕ) (st : St) : St :=
  match st.channels[i]? with
  | some none =>
      let p := play ok st.nextH
      match p.1 with
      | some c => { st with channels := st.channels.set i (some { c with vol := 0 }), nextH := p.2 }
      | none => { st with nextH := p.2 }
  | _ => st

/-- `play_all_tracks_muted` (source lines 94-128).  The first ADC read
(line 104) only feeds the log output; the volumes actually applied come
from the second read inside `adjust_bg_volumes` (line 118). -/
def play_all_tracks_muted (ok : ℕ → Bool) (r1 r2 : Option ℕ) (st : St) : St :=
  let _initial_adc_value := get_adc_value r1
  let st1 := (List.range 2).foldl (fun s i => startBgAt ok i s) st
  let st2 := adjust_bg_volumes r2 st1
  let st3 := (List.range 6).foldl (fun s i => startFgAt ok i s) st2
  { st3 with playing := true }

/-- `unmute_track` (source lines 131-141): restart the channel if absent,
then set volume 1 if present. -/
def unmute_track (ok : ℕ → Bool) (index : ℕ) (st : St) : St :=
  let st1 :=
    match st.channels[index]? with
    | some none =>
        let p := play ok st.nextH
        { st with channels := st.channels.set index p.1, nextH := p.2 }
    | _ => st
  match st1.channels[index]? with
  | some (some c) => { st1 with channels := st1.channels.set index (some { c with vol := 1 }) }
  | _ => st1

/-- `mute_track` (source lines 144-150): set volume 0 if the channel exists. -/
def mute_track (index : ℕ) (st : St) : St :=
  match st.channels[index]? with
  | some (some c) => { st with channels := st.channels.set index (some { c with vol := 0 }) }
  | _ => st

/-- `stop_all_tracks` (source lines 153-174): stop and clear every channel,
clear the timer, clear `playing`. -/
def stop_all_tracks (st : St) : St :=
  { st with channels := st.channels.map (fun _ => none)
            bgChannels := st.bgChannels.map (fun _ => none)
            timer_start := none
            playing := false }

/-- `gpio_callback` (source lines 177-198).  `input_pins.index(channel)`
raises `ValueError` for an unmapped pin, modelled as `Except.error`. -/
def gpio_callback (ok : ℕ → Bool) (pin : ℕ) (pin_state : Level) (now : ℚ)
    (r1 r2 : Option ℕ) (st : St) : Except Unit St :=
  match input_pins.findIdx? (fun x => x = pin) with
  | none => Except.error ()
  | some pin_index =>
      let st1 := if st.playing = false ∧ pin_state = Level.LOW
                 then play_all_tracks_muted ok r1 r2 st else st
      if pin_state = Level.LOW then
        Except.ok (unmute_track ok pin_index { st1 with timer_start := some now })
      else
        Except.ok (mute_track pin_index st1)

/-- One iteration of the main loop (source lines 220-228): timeout check,
then continuous background-volume adjustment while playing. -/
def tick (now : ℚ) (r : Option ℕ) (st : St) : St :=
  let st1 :=
    match st.timer_start with
    | some t0 => if PLAYBACK_DURATION ≤ now - t0 then stop_all_tracks st else st
    | none => st
  if st1.playing then adjust_bg_volumes r st1 else st1

/-- External events: a GPIO edge callback or one main-loop iteration.
Each carries its wall-clock time and the outcome of any ADC reads. -/
inductive Ev where
  | gpio (pin : ℕ) (level : Level) (now : ℚ) (r1 r2 : Option ℕ)
  | tick (now : ℚ) (r : Option ℕ)

/-- Apply one event.  An exception escaping the callback leaves the shared
state as it was (the lookup is the callback's first statement). -/
def step (ok : ℕ → Bool) (st : St) (e : Ev) : St :=
  match e with
  | Ev.gpio pin level now r1 r2 =>
      match gpio_callback ok pin level now r1 r2 st with
      | Except.ok st' => st'
      | Except.error _ => st
  | Ev.tick now r => tick now r st

/-- Run the system from startup over a list of events. -/
def run (ok : ℕ → Bool) (es : List Ev) : St :=
  es.foldl (step ok) init

/-- The session deadline was implicit in the script: the timeout fires when
`now - timer_start >= PLAYBACK_DURATION`, so the deadline is
`timer_start + PLAYBACK_DURATION`. -/
def deadline (st : St) : Option ℚ :=
  st.timer_start.map (fun t => t + PLAYBACK_DURATION)

/-- The timeout condition of the main loop at time `now`. -/
def timedOut (st : St) (now : ℚ) : Prop :=
  ∃ t0, st.timer_start = some t0 ∧ PLAYBACK_DURATION ≤ now - t0

/-- `e` is a main-loop iteration whose timeout check fires on `st`. -/
def tickExpires (st : St) (e : Ev) : Prop :=
  match e with
  | Ev.tick now _ => timedOut st now
  | _ => False

/-- Every channel present before is still present afterwards with the same
handle (no channel was stopped; at most its volume changed). -/
def handlesPreserved (st st' : St) : Prop :=
  (∀ (i : ℕ) (c : Chan), st.channels[i]? = some (some c) →
      ∃ c' : Chan, st'.channels[i]? = some (some c') ∧ c'.handle = c.handle) ∧
  (∀ (i : ℕ) (c : Chan), st.bgChannels[i]? = some (some c) →
      ∃ c' : Chan, st'.bgChannels[i]? = some (some c') ∧ c'.handle = c.handle)

/-- The handle stored at slot `index` after `unmute_track`: the old handle
when the channel existed, else the freshly allocated one. -/
def newHandle (c : Option Chan) (n : ℕ) : ℕ :=
  match c with
  | some ch => ch.handle
  | none => n

/-- Modelled from the spec: the debounce filter (spec 4.3).  The source
only configures it (`bouncetime=300`, line 215); the filter itself lives
inside the GPIO library.  State: last-accepted timestamp per slot, reset
only by acceptance; a transition within the quiet window of the last
accepted one is discarded, with no queued replay. -/
def BOUNCETIME : ℚ := 300

/-- Modelled from the spec: per-slot debounce state — the timestamp (ms) of
the slot's last accepted transition, if any. -/
structure Deb where
  last : Option ℚ
  deriving DecidableEq, Repr

/-- Modelled from the spec: accept or discard one transition at time `t`
(ms); acceptance resets the window, a discard leaves the state unchanged. -/
def debAccept (d : Deb) (t : ℚ) : Bool × Deb :=
  match d.last with
  | none => (true, ⟨some t⟩)
  | some t0 => if t - t0 < BOUNCETIME then (false, d) else (true, ⟨some t⟩)

/-- Modelled from the spec: fold the debounce filter over a timestamp list,
returning each transition's accept/discard verdict. -/
def debRun (d : Deb) (ts : List ℚ) : List Bool :=
  match ts with
  | [] => []
  | t :: rest =>
      let p := debAccept d t
      p.1 :: debRun p.2 rest

/-- Number of transitions a timestamp sequence gets accepted. -/
def acceptedCount (d : Deb) (ts : List ℚ) : ℕ :=
  (debRun d ts).count true

/-- Whenever both background channels exist, their volumes are complementary. -/
def BgSum (bgs : List (Option Chan)) : Prop :=
  ∀ c0 c1 : Chan, bgs[0]? = some (some c0) → bgs[1]? = some (some c1) →
    c0.vol + c1.vol = 1

/-- The reachable-state invariant: the lists keep their lengths, the timer is
set exactly while playing, and the background volumes stay complementary. -/
def Inv (st : St) : Prop :=
  st.channels.length = 6 ∧ st.bgChannels.length = 2 ∧
  st.timer_start.isSome = st.playing ∧
  (st.playing = true → BgSum st.bgChannels)

/-- The pin of slot `k`: the `k`-th entry of `input_pins`. -/
def pinOf (k : Fin 6) : ℕ :=
  input_pins.getD k.val 0

/-- The sequence of values the main loop obtains from a sequence of ADC
read outcomes: `get_adc_value` is stateless, one call per outcome. -/
def adcTrace (rs : List (Option ℕ)) : List ℕ :=
  rs.map get_adc_value

/-! A concrete demonstration run, used to witness the theorems below:
startup followed by one accepted LOW on pin 0 at time 0 (both ADC reads
failing, so the midpoint 512 drives the crossfade). -/

/-- Demonstration allocation oracle: the mixer always has a free channel. -/
def okW : ℕ → Bool := fun _ => true

/-- Demonstration event list: one accepted LOW on pin 0 at time 0. -/
def esW : List Ev := [Ev.gpio 0 Level.LOW 0 none none]

/-! ## Projection lemmas: which fields each operation leaves untouched -/

lemma range_two : List.range 2 = [0, 1] := rfl

lemma range_six : List.range 6 = [0, 1, 2, 3, 4, 5] := rfl

@[simp] lemma setVolAt_length (xs : List (Option Chan)) (i : ℕ) (v : ℚ) :
    (setVolAt xs i v).length = xs.length := by
  unfold setVolAt; split <;> simp

@[simp] lemma startBgAt_channels (ok : ℕ → Bool) (i : ℕ) (st : St) :
    (startBgAt ok i st).channels = st.channels := by
  unfold startBgAt
  split
  · dsimp only
    split <;> rfl
  · rfl

@[simp] lemma startBgAt_timer (ok : ℕ → Bool) (i : ℕ) (st : St) :
    (startBgAt ok i st).timer_start = st.timer_start := by
  unfold startBgAt
  split
  · dsimp only
    split <;> rfl
  · rfl

@[simp] lemma startBgAt_playing (ok : ℕ → Bool) (i : ℕ) (st : St) :
    (startBgAt ok i st).playing = st.playing := by
  unfold startBgAt
  split
  · dsimp only
    split <;> rfl
  · rfl

@[simp] lemma startBgAt_bg_length (ok : ℕ → Bool) (i : ℕ) (st : St) :
    (startBgAt ok i st).bgChannels.length = st.bgChannels.length := by
  unfold startBgAt
  split
  · dsimp only
    split <;> simp
  · rfl

@[simp] lemma startFgAt_bgChannels (ok : ℕ → Bool) (i : ℕ) (st : St) :
    (startFgAt ok i st).bgChannels = st.bgChannels := by
  unfold startFgAt
  split
  · dsimp only
    split <;> rfl
  · rfl

@[simp] lemma startFgAt_timer (ok : ℕ → Bool) (i : ℕ) (st : St) :
    (startFgAt ok i st).timer_start = st.timer_start := by
  unfold startFgAt
  split
  · dsimp only
    split <;> rfl
  · rfl

@[simp] lemma startFgAt_playing (ok : ℕ → Bool) (i : ℕ) (st : St) :
    (startFgAt ok i st).playing = st.playing := by
  unfold startFgAt
  split
  · dsimp only
    split <;> rfl
  · rfl

@[simp] lemma startFgAt_fg_length (ok : ℕ → Bool) (i : ℕ) (st : St) :
    (startFgAt ok i st).channels.length = st.channels.length := by
  unfold startFgAt
  split
  · dsimp only
    split <;> simp
  · rfl

@[simp] lemma adjust_channels (r : Option ℕ) (st : St) :
    (adjust_bg_volumes r st).channels = st.channels := rfl

@[simp] lemma adjust_timer (r : Option ℕ) (st : St) :
    (adjust_bg_volumes r st).timer_start = st.timer_start := rfl

@[simp] lemma adjust_playing (r : Option ℕ) (st : St) :
    (adjust_bg_volumes r st).playing = st.playing := rfl

@[simp] lemma adjust_nextH (r : Option ℕ) (st : St) :
    (adjust_bg_volumes r st).nextH = st.nextH := rfl

@[simp] lemma adjust_bg_length (r : Option ℕ) (st : St) :
    (adjust_bg_volumes r st).bgChannels.length = st.bgChannels.length := by
  simp [adjust_bg_volumes]

@[simp] lemma unmute_bgChannels (ok : ℕ → Bool) (index : ℕ) (st : St) :
    (unmute_track ok index st).bgChannels = st.bgChannels := by
  unfold unmute_track
  split
  · dsimp only
    split <;> rfl
  · dsimp only
    split <;> rfl

@[simp] lemma unmute_timer (ok : ℕ → Bool) (index : ℕ) (st : St) :
    (unmute_track ok index st).timer_start = st.timer_start := by
  unfold unmute_track
  split
  · dsimp only
    split <;> rfl
  · dsimp only
    split <;> rfl

@[simp] lemma unmute_playing (ok : ℕ → Bool) (index : ℕ) (st : St) :
    (unmute_track ok index st).playing = st.playing := by
  unfold unmute_track
  split
  · dsimp only
    split <;> rfl
  · dsimp only
    split <;> rfl

@[simp] lemma unmute_fg_length (ok : ℕ → Bool) (index : ℕ) (st : St) :
    (unmute_track ok index st).channels.length = st.channels.length := by
  unfold unmute_track
  split
  · dsimp only
    split <;> simp
  · dsimp only
    split <;> simp

@[simp] lemma mute_bgChannels (index : ℕ) (st : St) :
    (mute_track index st).bgChannels = st.bgChannels := by
  unfold mute_track; split <;> rfl

@[simp] lemma mute_timer (index : ℕ) (st : St) :
    (mute_track index st).timer_start = st.timer_start := by
  unfold mute_track; split <;> rfl

@[simp] lemma mute_playing (index : ℕ) (st : St) :
    (mute_track index st).playing = st.playing := by
  unfold mute_track; split <;> rfl

@[simp] lemma mute_nextH (index : ℕ) (st : St) :
    (mute_track index st).nextH = st.nextH := by
  unfold mute_track; split <;> rfl

@[simp] lemma mute_fg_length (index : ℕ) (st : St) :
    (mute_track index st).channels.length = st.channels.length := by
  unfold mute_track; split <;> simp

@[simp] lemma play_all_timer (ok : ℕ → Bool) (r1 r2 : Option ℕ) (st : St) :
    (play_all_tracks_muted ok r1 r2 st).timer_start = st.timer_start := by
  simp [play_all_tracks_muted, range_two, range_six]

@[simp] lemma play_all_playing (ok : ℕ → Bool) (r1 r2 : Option ℕ) (st : St) :
    (play_all_tracks_muted ok r1 r2 st).playing = true := rfl

@[simp] lemma play_all_fg_length (ok : ℕ → Bool) (r1 r2 : Option ℕ) (st : St) :
    (play_all_tracks_muted ok r1 r2 st).channels.length = st.channels.length := by
  simp [play_all_tracks_muted, range_two, range_six]

@[simp] lemma play_all_bg_length (ok : ℕ → Bool) (r1 r2 : Option ℕ) (st : St) :
    (play_all_tracks_muted ok r1 r2 st).bgChannels.length = st.bgChannels.length := by
  simp [play_all_tracks_muted, range_two, range_six]

/-! ## Characterising the GPIO callback -/

lemma gpio_callback_low (ok : ℕ → Bool) (pin : ℕ) (now : ℚ) (r1 r2 : Option ℕ)
    (st : St) (k : ℕ) (hk : input_pins.findIdx? (fun x => x = pin) = some k) :
    gpio_callback ok pin Level.LOW now r1 r2 st =
      Except.ok (unmute_track ok k
        { (if st.playing = false then play_all_tracks_muted ok r1 r2 st else st) with
            timer_start := some now }) := by
  simp only [gpio_callback, hk]
  simp

lemma gpio_callback_high (ok : ℕ → Bool) (pin : ℕ) (now : ℚ) (r1 r2 : Option ℕ)
    (st : St) (k : ℕ) (hk : input_pins.findIdx? (fun x => x = pin) = some k) :
    gpio_callback ok pin Level.HIGH now r1 r2 st = Except.ok (mute_track k st) := by
  simp only [gpio_callback, hk]
  simp

lemma gpio_callback_err (ok : ℕ → Bool) (pin : ℕ) (level : Level) (now : ℚ)
    (r1 r2 : Option ℕ) (st : St)
    (h : input_pins.findIdx? (fun x => x = pin) = none) :
    gpio_callback ok pin level now r1 r2 st = Except.error () := by
  simp only [gpio_callback, h]

/-! ## The volume invariant of the background pair -/

lemma adjust_BgSum (r : Option ℕ) (st : St) (h2 : st.bgChannels.length = 2) :
    BgSum (adjust_bg_volumes r st).bgChannels := by
  obtain ⟨b0, b1, hb⟩ := List.length_eq_two.mp h2
  intro c0 c1 h0 h1
  cases b0 with
  | none =>
      cases b1 <;> simp [adjust_bg_volumes, setVolAt, hb] at h0
  | some a0 =>
      cases b1 with
      | none =>
          simp [adjust_bg_volumes, setVolAt, hb] at h1
      | some a1 =>
          simp [adjust_bg_volumes, setVolAt, hb] at h0 h1
          rw [← h0, ← h1]
          ring

lemma inv_init : Inv init := by
  refine ⟨rfl, rfl, rfl, ?_⟩
  intro h
  simp [init] at h

lemma play_all_bgChannels (ok : ℕ → Bool) (r1 r2 : Option ℕ) (st : St) :
    (play_all_tracks_muted ok r1 r2 st).bgChannels =
      (adjust_bg_volumes r2 ((List.range 2).foldl (fun s i => startBgAt ok i s) st)).bgChannels := by
  simp [play_all_tracks_muted, range_six]

lemma play_all_BgSum (ok : ℕ → Bool) (r1 r2 : Option ℕ) (st : St)
    (h2 : st.bgChannels.length = 2) :
    BgSum (play_all_tracks_muted ok r1 r2 st).bgChannels := by
  rw [play_all_bgChannels]
  exact adjust_BgSum _ _ (by simp [range_two, h2])

lemma inv_stop (st : St) (h : Inv st) : Inv (stop_all_tracks st) := by
  obtain ⟨h6, h2, _, _⟩ := h
  refine ⟨by simp [stop_all_tracks, h6], by simp [stop_all_tracks, h2], rfl, ?_⟩
  intro hp
  simp [stop_all_tracks] at hp

lemma inv_tick (now : ℚ) (r : Option ℕ) (st : St) (h : Inv st) : Inv (tick now r st) := by
  obtain ⟨h6, h2, ht, hbg⟩ := h
  unfold tick
  cases htm : st.timer_start with
  | none =>
      dsimp only
      split
      next hp =>
        have hpf : st.playing = false := by rw [← ht, htm]; rfl
        exact absurd hp (by simp [hpf])
      next hp => exact ⟨h6, h2, ht, hbg⟩
  | some t0 =>
      dsimp only
      by_cases hcond : PLAYBACK_DURATION ≤ now - t0
      · rw [if_pos hcond]
        have hps : (stop_all_tracks st).playing = false := rfl
        rw [hps]
        simp only [Bool.false_eq_true, if_false]
        exact inv_stop st ⟨h6, h2, ht, hbg⟩
      · rw [if_neg hcond]
        split
        next hp =>
          exact ⟨by simp [h6], by simp [h2], by simp [htm, hp], fun _ => adjust_BgSum r st h2⟩
        next hp => exact ⟨h6, h2, ht, hbg⟩

lemma inv_step (ok : ℕ → Bool) (st : St) (e : Ev) (h : Inv st) : Inv (step ok st e) := by
  cases e with
  | tick now r => exact inv_tick now r st h
  | gpio pin level now r1 r2 =>
      cases hfind : input_pins.findIdx? (fun x => x = pin) with
      | none =>
          simp only [step, gpio_callback_err ok pin level now r1 r2 st hfind]
          exact h
      | some k =>
          obtain ⟨h6, h2, ht, hbg⟩ := h
          cases level with
          | HIGH =>
              simp only [step, gpio_callback_high ok pin now r1 r2 st k hfind]
              exact ⟨by simp [h6], by simp [h2], by simp [ht], by simpa using hbg⟩
          | LOW =>
              simp only [step, gpio_callback_low ok pin now r1 r2 st k hfind]
              by_cases hp : st.playing = false
              · rw [if_pos hp]
                refine ⟨by simp [h6], by simp [h2], by simp, ?_⟩
                intro _
                have hbgeq : (unmute_track ok k
                    { play_all_tracks_muted ok r1 r2 st with timer_start := some now }).bgChannels
                      = (play_all_tracks_muted ok r1 r2 st).bgChannels := by
                  simp
                rw [hbgeq]
                exact play_all_BgSum ok r1 r2 st h2
              · rw [if_neg hp]
                refine ⟨by simp [h6], by simp [h2], by simp [eq_comm.mp (Bool.not_eq_false st.playing ▸ hp)], ?_⟩
                intro _
                have hbgeq : (unmute_track ok k
                    { st with timer_start := some now }).bgChannels = st.bgChannels := by
                  simp
                rw [hbgeq]
                exact hbg (by revert hp; cases st.playing <;> simp)

lemma inv_run (ok : ℕ → Bool) (es : List Ev) : Inv (run ok es) := by
  suffices h : ∀ st, Inv st → Inv (es.foldl (step ok) st) by
    exact h init inv_init
  induction es with
  | nil => intro st h; exact h
  | cons e rest ih =>
      intro st h
      exact ih _ (inv_step ok st e h)

/-! ## Handle preservation: nothing but the timeout ever stops a channel -/

lemma handlesPreserved_refl (st : St) : handlesPreserved st st :=
  ⟨fun _ c h => ⟨c, h, rfl⟩, fun _ c h => ⟨c, h, rfl⟩⟩

lemma handlesPreserved_trans {a b c : St}
    (hab : handlesPreserved a b) (hbc : handlesPreserved b c) : handlesPreserved a c := by
  refine ⟨fun i ch h => ?_, fun i ch h => ?_⟩
  · obtain ⟨c1, h1, e1⟩ := hab.1 i ch h
    obtain ⟨c2, h2, e2⟩ := hbc.1 i c1 h1
    exact ⟨c2, h2, by rw [e2, e1]⟩
  · obtain ⟨c1, h1, e1⟩ := hab.2 i ch h
    obtain ⟨c2, h2, e2⟩ := hbc.2 i c1 h1
    exact ⟨c2, h2, by rw [e2, e1]⟩

lemma handlesPreserved_of_eq {st st' : St} (h1 : st'.channels = st.channels)
    (h2 : st'.bgChannels = st.bgChannels) : handlesPreserved st st' :=
  ⟨fun _ c h => ⟨c, by rw [h1]; exact h, rfl⟩, fun _ c h => ⟨c, by rw [h2]; exact h, rfl⟩⟩

/-- `set_volume` keeps every present channel present with its handle. -/
lemma setVolAt_pres (xs : List (Option Chan)) (i : ℕ) (v : ℚ) :
    ∀ (j : ℕ) (c : Chan), xs[j]? = some (some c) →
      ∃ c' : Chan, (setVolAt xs i v)[j]? = some (some c') ∧ c'.handle = c.handle := by
  intro j c hj
  unfold setVolAt
  split
  next c0 h0 =>
    rw [List.getElem?_set]
    by_cases hij : i = j
    · subst hij
      have hlt : i < xs.length := (List.getElem?_eq_some.mp hj).1
      rw [h0] at hj
      refine ⟨{ c0 with vol := v }, ?_, ?_⟩
      · simp [hlt]
      · simp at hj
        rw [hj]
    · exact ⟨c, by simp [hij, hj], rfl⟩
  next => exact ⟨c, hj, rfl⟩

/-- Writing into a slot whose channel was absent keeps every present channel. -/
lemma set_none_pres (xs : List (Option Chan)) (i : ℕ) (y : Option Chan)
    (h0 : xs[i]? = some none) :
    ∀ (j : ℕ) (c : Chan), xs[j]? = some (some c) → (xs.set i y)[j]? = some (some c) := by
  intro j c hj
  rw [List.getElem?_set]
  by_cases hij : i = j
  · subst hij
    rw [h0] at hj
    simp at hj
  · simp [hij, hj]

lemma startBgAt_pres (ok : ℕ → Bool) (i : ℕ) (st : St) :
    handlesPreserved st (startBgAt ok i st) := by
  unfold startBgAt
  split
  next h0 =>
    dsimp only
    split
    · refine ⟨fun j c hj => ⟨c, hj, rfl⟩, fun j c hj => ⟨c, ?_, rfl⟩⟩
      exact set_none_pres st.bgChannels i _ h0 j c hj
    · exact handlesPreserved_refl st
  next => exact handlesPreserved_refl st

lemma startFgAt_pres (ok : ℕ → Bool) (i : ℕ) (st : St) :
    handlesPreserved st (startFgAt ok i st) := by
  unfold startFgAt
  split
  next h0 =>
    dsimp only
    split
    · refine ⟨fun j c hj => ⟨c, ?_, rfl⟩, fun j c hj => ⟨c, hj, rfl⟩⟩
      exact set_none_pres st.channels i _ h0 j c hj
    · exact handlesPreserved_refl st
  next => exact handlesPreserved_refl st

lemma adjust_pres (r : Option ℕ) (st : St) :
    handlesPreserved st (adjust_bg_volumes r st) := by
  refine ⟨fun j c hj => ⟨c, hj, rfl⟩, fun j c hj => ?_⟩
  show ∃ c' : Chan, (setVolAt (setVolAt st.bgChannels 0 _) 1 _)[j]? = some (some c') ∧
    c'.handle = c.handle
  obtain ⟨c1, h1, e1⟩ := setVolAt_pres st.bgChannels 0 _ j c hj
  obtain ⟨c2, h2, e2⟩ := setVolAt_pres (setVolAt st.bgChannels 0 _) 1 _ j c1 h1
  exact ⟨c2, h2, by rw [e2, e1]⟩

lemma unmute_pres (ok : ℕ → Bool) (index : ℕ) (st : St) :
    handlesPreserved st (unmute_track ok index st) := by
  unfold unmute_track
  split
  next h0 =>
    dsimp only
    have hstep : handlesPreserved st
        { st with channels := st.channels.set index (play ok st.nextH).1,
                  nextH := (play ok st.nextH).2 } := by
      refine ⟨fun j c hj => ⟨c, ?_, rfl⟩, fun j c hj => ⟨c, hj, rfl⟩⟩
      exact set_none_pres st.channels index _ h0 j c hj
    refine handlesPreserved_trans hstep ?_
    split
    next c1 h1 =>
      refine ⟨fun j c hj => ?_, fun j c hj => ⟨c, hj, rfl⟩⟩
      have h1' : (st.channels.set index (play ok st.nextH).1)[index]? = some (some c1) := h1
      by_cases hij : index = j
      · subst hij
        rw [h1'] at hj
        simp at hj
        refine ⟨{ c1 with vol := 1 }, ?_, ?_⟩
        · have hlt : index < (st.channels.set index (play ok st.nextH).1).length :=
            (List.getElem?_eq_some.mp h1').1
          simp only [List.length_set] at hlt
          rw [List.getElem?_set]
          simp [hlt]
        · rw [hj]
      · exact ⟨c, by rw [List.getElem?_set]; simp [hij, hj], rfl⟩
    next => exact handlesPreserved_refl _
  next =>
    dsimp only
    split
    next c1 h1 =>
      refine ⟨fun j c hj => ?_, fun j c hj => ⟨c, hj, rfl⟩⟩
      by_cases hij : index = j
      · subst hij
        rw [h1] at hj
        simp at hj
        refine ⟨{ c1 with vol := 1 }, ?_, ?_⟩
        · have hlt : index < st.channels.length := (List.getElem?_eq_some.mp h1).1
          rw [List.getElem?_set]
          simp [hlt]
        · rw [hj]
      · exact ⟨c, by rw [List.getElem?_set]; simp [hij, hj], rfl⟩
    next => exact handlesPreserved_refl _

lemma mute_pres (index : ℕ) (st : St) :
    handlesPreserved st (mute_track index st) := by
  unfold mute_track
  split
  next c1 h1 =>
    refine ⟨fun j c hj => ?_, fun j c hj => ⟨c, hj, rfl⟩⟩
    by_cases hij : index = j
    · subst hij
      rw [h1] at hj
      simp at hj
      refine ⟨{ c1 with vol := 0 }, ?_, ?_⟩
      · have hlt : index < st.channels.length := (List.getElem?_eq_some.mp h1).1
        rw [List.getElem?_set]
        simp [hlt]
      · rw [hj]
    · exact ⟨c, by rw [List.getElem?_set]; simp [hij, hj], rfl⟩
  next => exact handlesPreserved_refl _

lemma foldl_pres (f : St → ℕ → St) (h : ∀ s i, handlesPreserved s (f s i)) :
    ∀ (l : List ℕ) (s : St), handlesPreserved s (l.foldl f s) := by
  intro l
  induction l with
  | nil => intro s; exact handlesPreserved_refl s
  | cons x xs ih =>
      intro s
      exact handlesPreserved_trans (h s x) (ih (f s x))

lemma play_all_pres (ok : ℕ → Bool) (r1 r2 : Option ℕ) (st : St) :
    handlesPreserved st (play_all_tracks_muted ok r1 r2 st) := by
  have hX : handlesPreserved st ((List.range 6).foldl (fun s i => startFgAt ok i s)
      (adjust_bg_volumes r2 ((List.range 2).foldl (fun s i => startBgAt ok i s) st))) :=
    handlesPreserved_trans (foldl_pres _ (fun s i => startBgAt_pres ok i s) (List.range 2) st)
      (handlesPreserved_trans (adjust_pres r2 _)
        (foldl_pres _ (fun s i => startFgAt_pres ok i s) (List.range 6) _))
  have hdef : play_all_tracks_muted ok r1 r2 st =
      { (List.range 6).foldl (fun s i => startFgAt ok i s)
          (adjust_bg_volumes r2 ((List.range 2).foldl (fun s i => startBgAt ok i s) st)) with
        playing := true } := rfl
  rw [hdef]
  revert hX
  generalize (List.range 6).foldl (fun s i => startFgAt ok i s)
      (adjust_bg_volumes r2 ((List.range 2).foldl (fun s i => startBgAt ok i s) st)) = Y
  intro hX
  exact handlesPreserved_trans hX (handlesPreserved_of_eq rfl rfl)

lemma step_pres (ok : ℕ → Bool) (st : St) (e : Ev) (h : ¬ tickExpires st e) :
    handlesPreserved st (step ok st e) := by
  cases e with
  | gpio pin level now r1 r2 =>
      cases hfind : input_pins.findIdx? (fun x => x = pin) with
      | none =>
          simp only [step, gpio_callback_err ok pin level now r1 r2 st hfind]
          exact handlesPreserved_refl st
      | some k =>
          cases level with
          | HIGH =>
              simp only [step, gpio_callback_high ok pin now r1 r2 st k hfind]
              exact mute_pres k st
          | LOW =>
              simp only [step, gpio_callback_low ok pin now r1 r2 st k hfind]
              by_cases hp : st.playing = false
              · rw [if_pos hp]
                have h1 := play_all_pres ok r1 r2 st
                revert h1
                generalize play_all_tracks_muted ok r1 r2 st = Y
                intro h1
                exact handlesPreserved_trans h1
                  (handlesPreserved_trans (handlesPreserved_of_eq rfl rfl)
                    (unmute_pres ok k { Y with timer_start := some now }))
              · rw [if_neg hp]
                exact handlesPreserved_trans (handlesPreserved_of_eq rfl rfl)
                  (unmute_pres ok k { st with timer_start := some now })
  | tick now r =>
      simp only [tickExpires] at h
      show handlesPreserved st (tick now r st)
      unfold tick
      cases htm : st.timer_start with
      | none =>
          dsimp only
          split
          · exact adjust_pres r st
          · exact handlesPreserved_refl st
      | some t0 =>
          dsimp only
          have hcond : ¬ PLAYBACK_DURATION ≤ now - t0 := fun hc => h ⟨t0, htm, hc⟩
          rw [if_neg hcond]
          split
          · exact adjust_pres r st
          · exact handlesPreserved_refl st

lemma tick_timeout (now : ℚ) (r : Option ℕ) (st : St) (h : timedOut st now) :
    tick now r st = stop_all_tracks st := by
  obtain ⟨t0, htm, hc⟩ := h
  unfold tick
  rw [htm]
  dsimp only
  rw [if_pos hc]
  have hps : (stop_all_tracks st).playing = false := rfl
  rw [hps]
  simp

lemma run_esW : run okW esW =
    { channels := [some ⟨2, 1⟩, some ⟨3, 0⟩, some ⟨4, 0⟩,
                   some ⟨5, 0⟩, some ⟨6, 0⟩, some ⟨7, 0⟩]
      bgChannels := [some ⟨0, 25/47⟩, some ⟨1, 22/47⟩]
      timer_start := some 0
      playing := true
      nextH := 8 } := by
  show step okW init (Ev.gpio 0 Level.LOW 0 none none) = _
  have hfind : input_pins.findIdx? (fun x => x = 0) = some 0 := rfl
  simp only [step, gpio_callback_low okW 0 0 none none init 0 hfind]
  norm_num [init, play_all_tracks_muted, adjust_bg_volumes, setVolAt,
    startBgAt, startFgAt, unmute_track, play, get_adc_value, volume_a_of,
    ADC_SENSOR_MAX, V_SENSOR_MAX, V_REF, ADC_MAX, okW, range_two, range_six,
    min_def]
  constructor <;> rfl

lemma pin_findIdx (k : Fin 6) :
    input_pins.findIdx? (fun x => x = pinOf k) = some k.val := by
  fin_cases k <;> rfl

lemma play_all_concrete (ok : ℕ → Bool) (r1 r2 : Option ℕ) (st : St)
    (hok : ∀ n, ok n = true)
    (hch : st.channels = List.replicate 6 none)
    (hbg : st.bgChannels = List.replicate 2 none) :
    play_all_tracks_muted ok r1 r2 st =
      { channels := [some ⟨st.nextH + 2, 0⟩, some ⟨st.nextH + 3, 0⟩,
                     some ⟨st.nextH + 4, 0⟩, some ⟨st.nextH + 5, 0⟩,
                     some ⟨st.nextH + 6, 0⟩, some ⟨st.nextH + 7, 0⟩]
        bgChannels := [some ⟨st.nextH, volume_a_of (get_adc_value r2)⟩,
                       some ⟨st.nextH + 1, 1 - volume_a_of (get_adc_value r2)⟩]
        timer_start := st.timer_start
        playing := true
        nextH := st.nextH + 8 } := by
  obtain ⟨ch, bg, tm, pl, n⟩ := st
  simp only at hch hbg
  subst hch
  subst hbg
  simp [play_all_tracks_muted, range_two, range_six, startBgAt, startFgAt,
    adjust_bg_volumes, setVolAt, play, hok]

lemma unmute_track_at (ok : ℕ → Bool) (kk : ℕ) (st : St) (c : Option Chan)
    (hc : st.channels[kk]? = some c) (hrestart : c = none → ok st.nextH = true) :
    (unmute_track ok kk st).channels[kk]? = some (some ⟨newHandle c st.nextH, 1⟩) := by
  have hlt : kk < st.channels.length := (List.getElem?_eq_some.mp hc).1
  cases c with
  | some ch =>
      unfold unmute_track
      rw [hc]
      dsimp only
      have h1 : (st.channels.set kk (some { ch with vol := 1 }))[kk]? =
          some (some { ch with vol := 1 }) := by
        rw [List.getElem?_set]
        simp [hlt]
      show (match st.channels[kk]? with
        | some (some c) => { st with channels := st.channels.set kk (some { c with vol := 1 }) }
        | _ => st).channels[kk]? = _
      rw [hc]
      dsimp only
      exact h1
  | none =>
      have hok := hrestart rfl
      unfold unmute_track
      rw [hc]
      dsimp only
      simp only [play, hok, if_true]
      have h1 : (st.channels.set kk (some (⟨st.nextH, 1⟩ : Chan)))[kk]? =
          some (some (⟨st.nextH, 1⟩ : Chan)) := by
        rw [List.getElem?_set]
        simp [hlt]
      rw [h1]
      dsimp only
      rw [List.set_set, List.getElem?_set]
      simp [hlt, newHandle]

lemma unmute_track_of_present (ok : ℕ → Bool) (kk : ℕ) (st : St) (c : Chan)
    (hc : st.channels[kk]? = some (some c)) :
    unmute_track ok kk st =
      { st with channels := st.channels.set kk (some ⟨c.handle, 1⟩) } := by
  unfold unmute_track
  rw [hc]
  dsimp only
  rw [hc]

/-! ## Claim theorems -/

/-- C5: in every reachable state, the session deadline (`timer_start`) is
present if and only if the session is active (`playing`); both are absent
or false at startup. -/
theorem deadline_iff_active (ok : ℕ → Bool) (es : List Ev) :
    ((run ok es).timer_start.isSome = (run ok es).playing) ∧
    init.timer_start = none ∧ init.playing = false :=
  ⟨(inv_run ok es).2.2.1, rfl, rfl⟩

/-- C6: at any reachable instant at which the session is active and both
background channels exist, their crossfade volumes sum to exactly 1. -/
theorem bg_volumes_sum_to_one (ok : ℕ → Bool) (es : List Ev) (c0 c1 : Chan)
    (hp : (run ok es).playing = true)
    (h0 : (run ok es).bgChannels[0]? = some (some c0))
    (h1 : (run ok es).bgChannels[1]? = some (some c1)) :
    c0.vol + c1.vol = 1 :=
  (inv_run ok es).2.2.2 hp c0 c1 h0 h1

/-- Witness for C6: after the demonstration run the two background volumes
are 25/47 and 22/47, and they sum to 1. -/
theorem bg_volumes_sum_to_one_witness :
    (⟨0, 25/47⟩ : Chan).vol + (⟨1, 22/47⟩ : Chan).vol = 1 :=
  bg_volumes_sum_to_one okW esW ⟨0, 25/47⟩ ⟨1, 22/47⟩
    (by rw [run_esW]) (by rw [run_esW]; rfl) (by rw [run_esW]; rfl)

/-- C7 counterexample: the claim's numbers assume `sensor_max = 962`, but the
code computes `ADC_SENSOR_MAX = (4.7/5.0)*1024 = 962.56`; hence raw 481 does
not give volume 0.5 and raw 962 is not clamped to 1. -/
theorem crossfade_claimed_values_fail :
    ADC_SENSOR_MAX ≠ 962 ∧ volume_a_of 481 ≠ 1/2 ∧ volume_a_of 962 ≠ 1 := by
  norm_num [ADC_SENSOR_MAX, V_SENSOR_MAX, V_REF, ADC_MAX, volume_a_of, min_def]

/-- C7 (amended): with the code's `ADC_SENSOR_MAX = 962.56 = 24064/25`,
raw 481 gives volume_a = 12025/24064 (≈ 0.49971, just below 0.5), raw 962
gives 12025/12032 (≈ 0.99942, not clamped), and raw 1024 — whose unclamped
ratio is 50/47 ≈ 1.0638 — is clamped to exactly 1; volume_b is always the
complement. -/
theorem crossfade_values :
    ADC_SENSOR_MAX = 24064/25 ∧
    volume_a_of 481 = 12025/24064 ∧ 1 - volume_a_of 481 = 12039/24064 ∧
    volume_a_of 962 = 12025/12032 ∧ 1 - volume_a_of 962 = 7/12032 ∧
    (1024 : ℚ) / ADC_SENSOR_MAX = 50/47 ∧
    volume_a_of 1024 = 1 ∧ 1 - volume_a_of 1024 = 0 := by
  norm_num [ADC_SENSOR_MAX, V_SENSOR_MAX, V_REF, ADC_MAX, volume_a_of, min_def]

/-- C8 counterexample: `get_adc_value` keeps no last-known-good sample — a
failing read after a successful read of 700 yields the fixed midpoint 512,
not 700. -/
theorem adc_failure_ignores_last_good :
    adcTrace [some 700, none] = [700, 512] ∧ (512 : ℕ) ≠ 700 :=
  ⟨rfl, by decide⟩

/-- C8 (amended): a failed analog read always yields the fixed midpoint 512
regardless of any earlier successful sample, a successful read yields its
sample, and the read operation is total (never fatal, so the tick loop is
never halted). -/
theorem adc_failure_returns_midpoint :
    get_adc_value none = 512 ∧ (∀ v : ℕ, get_adc_value (some v) = v) ∧
    adcTrace [some 700, none] = [700, 512] :=
  ⟨rfl, fun _ => rfl, rfl⟩

/-- C9 counterexample: an event on pin 3 — which is not one of the six
configured pins — makes the callback raise (Python `list.index` ValueError),
rather than being discarded with a warning. -/
theorem unmapped_pin_raises :
    gpio_callback okW 3 Level.LOW 0 none none init = Except.error () := rfl

/-- C9 (amended): an event whose pin is not among the configured six makes
the handler fail with a lookup error (modelling the `ValueError` raised by
`input_pins.index`) before any mutation, so the shared state is unchanged;
the event is not gracefully discarded, it raises. -/
theorem unmapped_pin_error_state_unchanged (ok : ℕ → Bool) (pin : ℕ)
    (level : Level) (now : ℚ) (r1 r2 : Option ℕ) (st : St)
    (h : pin ∉ input_pins) :
    gpio_callback ok pin level now r1 r2 st = Except.error () ∧
    step ok st (Ev.gpio pin level now r1 r2) = st := by
  have hfind : input_pins.findIdx? (fun x => x = pin) = none := by
    rw [List.findIdx?_eq_none_iff]
    intro x hx
    simp only [decide_eq_false_iff_not]
    intro hxp
    exact h (hxp ▸ hx)
  exact ⟨gpio_callback_err ok pin level now r1 r2 st hfind,
    by simp only [step, gpio_callback_err ok pin level now r1 r2 st hfind]⟩

/-- Witness for C9 (amended): pin 7 is unmapped; the callback errors and the
state is untouched. -/
theorem unmapped_pin_error_witness :
    gpio_callback okW 7 Level.LOW 0 none none init = Except.error () ∧
    step okW init (Ev.gpio 7 Level.LOW 0 none none) = init :=
  unmapped_pin_error_state_unchanged okW 7 Level.LOW 0 none none init (by decide)

/-- C10 (spec-modelled debounce): a transition within the 300 ms quiet
window of the slot's last accepted transition is discarded and leaves the
filter state unchanged (no queued replay), and two LOW transitions 50 ms
apart produce exactly one accepted transition. -/
theorem debounce_discards_within_window :
    (∀ (d : Deb) (t0 t : ℚ), d.last = some t0 → t - t0 < BOUNCETIME →
        debAccept d t = (false, d)) ∧
    acceptedCount ⟨none⟩ [0, 50] = 1 := by
  constructor
  · intro d t0 t h hlt
    unfold debAccept
    rw [h]
    dsimp only
    rw [if_pos hlt]
  · have h1 : debAccept ⟨none⟩ 0 = (true, ⟨some 0⟩) := rfl
    have h2 : debAccept ⟨some 0⟩ 50 = (false, ⟨some 0⟩) := by
      unfold debAccept
      dsimp only
      rw [if_pos (by norm_num [BOUNCETIME])]
    simp [acceptedCount, debRun, h1, h2]

/-- Witness for C10: a transition at t = 50 ms, 50 ms after the accepted one
at t = 0, is discarded with the filter state unchanged. -/
theorem debounce_discards_witness :
    debAccept ⟨some 0⟩ 50 = (false, ⟨some 0⟩) :=
  debounce_discards_within_window.1 ⟨some 0⟩ 0 50 rfl (by norm_num [BOUNCETIME])

/-- C3: when the deadline is reached (`now - timer_start >= PLAYBACK_DURATION`),
the main-loop iteration performs exactly the teardown `stop_all_tracks`, which
clears every foreground and background channel reference, clears the deadline
and returns to Idle; and no other event — no GPIO edge and no non-expired
iteration — ever stops a channel (every present handle survives). -/
theorem timeout_is_sole_stopper :
    (∀ (now : ℚ) (r : Option ℕ) (st : St), timedOut st now →
        tick now r st = stop_all_tracks st ∧
        (stop_all_tracks st).playing = false ∧
        (stop_all_tracks st).timer_start = none ∧
        deadline (stop_all_tracks st) = none ∧
        (stop_all_tracks st).channels = st.channels.map (fun _ => none) ∧
        (stop_all_tracks st).bgChannels = st.bgChannels.map (fun _ => none)) ∧
    (∀ (ok : ℕ → Bool) (st : St) (e : Ev), ¬ tickExpires st e →
        handlesPreserved st (step ok st e)) := by
  constructor
  · intro now r st h
    exact ⟨tick_timeout now r st h, rfl, rfl, rfl, rfl, rfl⟩
  · intro ok st e h
    exact step_pres ok st e h

/-- Witness for C3: after the demonstration run, a tick at t = 130 tears the
session down, while a HIGH edge at t = 5 preserves every channel handle. -/
theorem timeout_is_sole_stopper_witness :
    tick 130 none (run okW esW) = stop_all_tracks (run okW esW) ∧
    handlesPreserved (run okW esW)
      (step okW (run okW esW) (Ev.gpio 0 Level.HIGH 5 none none)) := by
  constructor
  · exact (timeout_is_sole_stopper.1 130 none (run okW esW)
      ⟨0, by rw [run_esW], by norm_num [PLAYBACK_DURATION]⟩).1
  · exact timeout_is_sole_stopper.2 okW (run okW esW)
      (Ev.gpio 0 Level.HIGH 5 none none) (fun hh => hh)

/-- C1: a LOW edge on slot `k` while Idle (not playing, all channels cleared)
atomically starts the session: both background channels start with the initial
crossfade volumes computed from the analog reading, all six foreground
channels start at volume 0 except slot `k`, which is unmuted to volume 1, the
deadline becomes `now + PLAYBACK_DURATION`, and the machine becomes Active. -/
theorem idle_low_starts_session (ok : ℕ → Bool) (k : Fin 6) (now : ℚ)
    (r1 r2 : Option ℕ) (st : St)
    (hok : ∀ n, ok n = true)
    (hidle : st.playing = false)
    (hch : st.channels = List.replicate 6 none)
    (hbg : st.bgChannels = List.replicate 2 none) :
    (step ok st (Ev.gpio (pinOf k) Level.LOW now r1 r2)).playing = true ∧
    deadline (step ok st (Ev.gpio (pinOf k) Level.LOW now r1 r2)) =
      some (now + PLAYBACK_DURATION) ∧
    (step ok st (Ev.gpio (pinOf k) Level.LOW now r1 r2)).bgChannels =
      [some ⟨st.nextH, volume_a_of (get_adc_value r2)⟩,
       some ⟨st.nextH + 1, 1 - volume_a_of (get_adc_value r2)⟩] ∧
    (step ok st (Ev.gpio (pinOf k) Level.LOW now r1 r2)).channels =
      (List.range 6).map
        (fun j => some ⟨st.nextH + 2 + j, if j = (k : ℕ) then 1 else 0⟩) := by
  simp only [step, gpio_callback_low ok (pinOf k) now r1 r2 st k.val (pin_findIdx k)]
  rw [if_pos hidle]
  rw [play_all_concrete ok r1 r2 st hok hch hbg]
  fin_cases k
  · exact ⟨rfl, rfl, rfl, rfl⟩
  · exact ⟨rfl, rfl, rfl, rfl⟩
  · exact ⟨rfl, rfl, rfl, rfl⟩
  · exact ⟨rfl, rfl, rfl, rfl⟩
  · exact ⟨rfl, rfl, rfl, rfl⟩
  · exact ⟨rfl, rfl, rfl, rfl⟩

/-- Witness for C1: from startup, a LOW on pin 0 at t = 0 with the analog
read failing (midpoint 512) produces the demonstration state. -/
theorem idle_low_starts_session_witness :
    (step okW init (Ev.gpio (pinOf 0) Level.LOW 0 none none)).playing = true ∧
    deadline (step okW init (Ev.gpio (pinOf 0) Level.LOW 0 none none)) =
      some (0 + PLAYBACK_DURATION) ∧
    (step okW init (Ev.gpio (pinOf 0) Level.LOW 0 none none)).bgChannels =
      [some ⟨init.nextH, volume_a_of (get_adc_value none)⟩,
       some ⟨init.nextH + 1, 1 - volume_a_of (get_adc_value none)⟩] ∧
    (step okW init (Ev.gpio (pinOf 0) Level.LOW 0 none none)).channels =
      (List.range 6).map
        (fun j => some ⟨init.nextH + 2 + j, if j = ((0 : Fin 6) : ℕ) then 1 else 0⟩) :=
  idle_low_starts_session okW 0 0 none none init (fun _ => rfl) rfl rfl rfl

/-- C2: a LOW edge on slot `k` while Active refreshes the deadline to
`now + PLAYBACK_DURATION` (so the deadline equals the most recent accepted
LOW's timestamp plus the duration, and with a monotone clock never
decreases), keeps the session Active, and unmutes slot `k` to volume 1 —
reusing the existing handle if the channel exists, restarting it fresh (the
next free handle) if it had been stopped. -/
theorem active_low_refreshes_deadline (ok : ℕ → Bool) (k : Fin 6)
    (now t0 : ℚ) (r1 r2 : Option ℕ) (st : St) (c : Option Chan)
    (hp : st.playing = true)
    (htm : st.timer_start = some t0)
    (hmono : t0 ≤ now)
    (hc : st.channels[(k : ℕ)]? = some c)
    (hrestart : c = none → ok st.nextH = true) :
    deadline st = some (t0 + PLAYBACK_DURATION) ∧
    deadline (step ok st (Ev.gpio (pinOf k) Level.LOW now r1 r2)) =
      some (now + PLAYBACK_DURATION) ∧
    t0 + PLAYBACK_DURATION ≤ now + PLAYBACK_DURATION ∧
    (step ok st (Ev.gpio (pinOf k) Level.LOW now r1 r2)).playing = true ∧
    (step ok st (Ev.gpio (pinOf k) Level.LOW now r1 r2)).channels[(k : ℕ)]? =
      some (some ⟨newHandle c st.nextH, 1⟩) := by
  simp only [step, gpio_callback_low ok (pinOf k) now r1 r2 st k.val (pin_findIdx k)]
  rw [if_neg (by simp [hp])]
  refine ⟨by simp [deadline, htm], by simp [deadline], by linarith, by simp [hp], ?_⟩
  exact unmute_track_at ok k.val { st with timer_start := some now } c hc hrestart

/-- Witness for C2: in the demonstration Active state, a second LOW on pin 0
at t = 10 moves the deadline from 120 to 130 and keeps slot 0's channel
(handle 2) at volume 1. -/
theorem active_low_refreshes_deadline_witness :
    deadline (run okW esW) = some (0 + PLAYBACK_DURATION) ∧
    deadline (step okW (run okW esW) (Ev.gpio (pinOf 0) Level.LOW 10 none none)) =
      some (10 + PLAYBACK_DURATION) ∧
    (0 : ℚ) + PLAYBACK_DURATION ≤ 10 + PLAYBACK_DURATION ∧
    (step okW (run okW esW) (Ev.gpio (pinOf 0) Level.LOW 10 none none)).playing = true ∧
    (step okW (run okW esW) (Ev.gpio (pinOf 0) Level.LOW 10 none none)).channels[((0 : Fin 6) : ℕ)]? =
      some (some ⟨newHandle (some ⟨2, 1⟩) (run okW esW).nextH, 1⟩) :=
  active_low_refreshes_deadline okW 0 10 0 none none (run okW esW) (some ⟨2, 1⟩)
    (by rw [run_esW]) (by rw [run_esW]) (by norm_num)
    (by rw [run_esW]; rfl) (fun _ => rfl)

/-- C4: while Active, a HIGH edge on a slot whose channel exists only sets
that channel's volume to 0 (the channel is not stopped), and a following LOW
on the same slot before any timeout sets it back to volume 1 on the very same
channel handle — across the vacate/reinsert pair only the volume changes. -/
theorem vacate_reinsert_reuses_channel (ok : ℕ → Bool) (k : Fin 6)
    (now now' : ℚ) (r1 r2 r1' r2' : Option ℕ) (st : St) (c : Chan)
    (hp : st.playing = true)
    (hc : st.channels[(k : ℕ)]? = some (some c)) :
    (step ok st (Ev.gpio (pinOf k) Level.HIGH now r1 r2)).channels =
      st.channels.set (k : ℕ) (some ⟨c.handle, 0⟩) ∧
    (step ok (step ok st (Ev.gpio (pinOf k) Level.HIGH now r1 r2))
        (Ev.gpio (pinOf k) Level.LOW now' r1' r2')).channels =
      st.channels.set (k : ℕ) (some ⟨c.handle, 1⟩) := by
  have hlt : (k : ℕ) < st.channels.length := (List.getElem?_eq_some.mp hc).1
  have hmute : step ok st (Ev.gpio (pinOf k) Level.HIGH now r1 r2) =
      { st with channels := st.channels.set (k : ℕ) (some ⟨c.handle, 0⟩) } := by
    simp only [step, gpio_callback_high ok (pinOf k) now r1 r2 st k.val (pin_findIdx k)]
    unfold mute_track
    rw [hc]
  have hget : (st.channels.set (k : ℕ) (some (⟨c.handle, 0⟩ : Chan)))[(k : ℕ)]? =
      some (some (⟨c.handle, 0⟩ : Chan)) := by
    rw [List.getElem?_set]
    simp [hlt]
  refine ⟨by rw [hmute], ?_⟩
  rw [hmute]
  simp only [step,
    gpio_callback_low ok (pinOf k) now' r1' r2'
      { st with channels := st.channels.set (k : ℕ) (some ⟨c.handle, 0⟩) } k.val
      (pin_findIdx k)]
  rw [if_neg (by simp [hp])]
  rw [unmute_track_of_present ok k.val _ ⟨c.handle, 0⟩ hget]
  dsimp only
  rw [List.set_set]

/-- Witness for C4: in the demonstration Active state, HIGH then LOW on pin 0
mutes then unmutes the same channel handle 2. -/
theorem vacate_reinsert_reuses_channel_witness :
    (step okW (run okW esW) (Ev.gpio (pinOf 0) Level.HIGH 5 none none)).channels =
      (run okW esW).channels.set ((0 : Fin 6) : ℕ) (some ⟨2, 0⟩) ∧
    (step okW (step okW (run okW esW) (Ev.gpio (pinOf 0) Level.HIGH 5 none none))
        (Ev.gpio (pinOf 0) Level.LOW 7 none none)).channels =
      (run okW esW).channels.set ((0 : Fin 6) : ℕ) (some ⟨2, 1⟩) :=
  vacate_reinsert_reuses_channel okW 0 5 7 none none none none (run okW esW) ⟨2, 1⟩
    (by rw [run_esW]) (by rw [run_esW]; rfl)

end MagneticToy
